import Mathlib

/-!
Verification of the address-space tracking and symbol-resolution core of the
samply profiler, against its natural-language specification.

The embedding covers:
* `Process` and its mutators / comparator / address resolution
  (from `fxprof-processed-profile/src/process.rs`);
* the perf-map descriptor-line parser and the synthetic-library loader
  (from `samply/src/shared/perf_map.rs`);
* the per-owner address-interval map `LibMappings` and the used-library
  registry `GlobalLibTable`, whose sources are not part of the excerpt and
  which are therefore modelled from the specification text.

Machine integers are modelled as `Nat` with explicit `% 2^w` where the code's
fixed-width arithmetic can wrap. Rust strings are modelled as `List Char`
(UTF-8 byte order and code-point order agree, so lexicographic comparison is
preserved).
-/

set_option autoImplicit false

namespace Samply

/-- Rust's `std::cmp::Ordering`, the result type of comparators. -/
inductive ROrdering where
  | lt
  | eq
  | gt
  deriving DecidableEq, Repr

/-- One stored range of an address-interval map: half-open
`[start_avma, end_avma)` with the library-relative address of `start_avma`
and the owning value (a library handle or a JIT-mapping record). -/
structure Mapping (T : Type) where
  start_avma : Nat
  end_avma : Nat
  relative_address_at_start : Nat
  value : T
  deriving DecidableEq, Repr

/-- Modelled from the spec: `LibMappings<T>` (`lib_mappings.rs` is not in the
excerpt). Per the spec's AddressIntervalMap it is a set of pairwise
non-overlapping ranges; we represent it as the list of live ranges, most
recently inserted first. -/
def LibMappings (T : Type) : Type := List (Mapping T)

namespace LibMappings

/-- Modelled from the spec: a fresh, empty map. -/
def new (T : Type) : LibMappings T := []

/-- Modelled from the spec: the part of an existing range that survives the
insertion of a new range `[s, e)` — the spec's "evicting/truncating any
existing range(s) whose address span intersects `[start, end)`". A disjoint
range survives whole; an intersecting range keeps its portions left of `s`
and right of `e` (the right portion with its relative origin advanced). -/
def cut {T : Type} (s e : Nat) (m : Mapping T) : List (Mapping T) :=
  if m.end_avma ≤ s ∨ e ≤ m.start_avma then
    [m]
  else
    (if m.start_avma < s then
      [{ m with end_avma := s }]
    else []) ++
    (if e < m.end_avma then
      [{ start_avma := e, end_avma := m.end_avma,
         relative_address_at_start :=
           m.relative_address_at_start + (e - m.start_avma),
         value := m.value }]
    else [])

/-- Modelled from the spec: `add_mapping(start, end, relative_origin, owner)`
inserts the range, evicting/truncating any existing range(s) intersecting
`[start, end)`, so that afterwards every address in `[start, end)` resolves
to the new mapping. -/
def add_mapping {T : Type} (self : LibMappings T)
    (start_avma end_avma relative_address_at_start : Nat) (value : T) :
    LibMappings T :=
  ⟨start_avma, end_avma, relative_address_at_start, value⟩ ::
    self.flatMap (cut start_avma end_avma)

/-- Modelled from the spec: `remove_mapping(start)` removes the range whose
recorded start equals `start` exactly; no effect if none matches. -/
def remove_mapping {T : Type} (self : LibMappings T) (start_avma : Nat) :
    LibMappings T :=
  self.filter (fun m => m.start_avma ≠ start_avma)

/-- Modelled from the spec: `clear()` removes all ranges. -/
def clear {T : Type} (_self : LibMappings T) : LibMappings T := []

/-- Modelled from the spec: `lookup(address)` (called `convert_address` in the
code): for a contained range, `relative_address = relative_origin +
(address - start)`; `None` if uncovered. -/
def convert_address {T : Type} (self : LibMappings T) (address : Nat) :
    Option (Nat × T) :=
  (self.find? (fun m =>
      decide (m.start_avma ≤ address) && decide (address < m.end_avma))).map
    (fun m => (m.relative_address_at_start + (address - m.start_avma), m.value))

end LibMappings

/-- Modelled from the spec: the used-library side of `GlobalLibTable` (its
source is not in the excerpt). It records, in first-use order, the library
handles that have contributed a resolved frame; a handle's used-index is its
position in that list. Library handles are the registry's opaque indices,
modelled as `Nat`. -/
structure GlobalLibTable where
  used_libs : List Nat
  deriving DecidableEq, Repr

/-- Position of a handle in the used-libs list, if present. -/
def idxOfHandle : List Nat → Nat → Option Nat
  | [], _ => none
  | x :: xs, h => if x = h then some 0 else (idxOfHandle xs h).map (· + 1)

/-- Modelled from the spec: `mark_used` / `index_for_used_lib` — if the handle
already has an index, return it; otherwise assign the next sequential index
and record it. -/
def GlobalLibTable.index_for_used_lib (self : GlobalLibTable) (handle : Nat) :
    Nat × GlobalLibTable :=
  match idxOfHandle self.used_libs handle with
  | some i => (i, self)
  | none => (self.used_libs.length, ⟨self.used_libs ++ [handle]⟩)

/-- `InternalFrameAddress` from `frame_table.rs`: the result of resolving a
raw address — either a relative address inside a used library, or the raw
address itself. -/
inductive InternalFrameAddress where
  | InLib (relative_address : Nat) (global_lib_index : Nat)
  | Unknown (address : Nat)
  deriving DecidableEq, Repr

/-- `Process` from `process.rs`. `Timestamp` is not in the excerpt; the spec
treats timestamps as totally ordered values, modelled as `Nat`. Thread and
library handles are opaque indices, modelled as `Nat`. The pid is a string,
modelled as `List Char`. -/
structure Process where
  pid : List Char
  name : List Char
  threads : List Nat
  main_thread : Option Nat
  start_time : Nat
  end_time : Option Nat
  libs : LibMappings Nat

namespace Process

/-- `Process::new`. -/
def new (name : List Char) (pid : List Char) (start_time : Nat) : Process :=
  { pid := pid
    threads := []
    main_thread := none
    libs := LibMappings.new Nat
    start_time := start_time
    end_time := none
    name := name }

/-- `Process::set_start_time`. -/
def set_start_time (self : Process) (start_time : Nat) : Process :=
  { self with start_time := start_time }

/-- `Process::set_end_time`. -/
def set_end_time (self : Process) (end_time : Nat) : Process :=
  { self with end_time := some end_time }

/-- `Process::set_name`. -/
def set_name (self : Process) (name : List Char) : Process :=
  { self with name := name }

/-- `Process::add_thread`. -/
def add_thread (self : Process) (thread : Nat) (is_main : Bool) : Process :=
  let self := { self with threads := self.threads ++ [thread] }
  if is_main && self.main_thread.isNone then
    { self with main_thread := some thread }
  else
    self

/-- Lexicographic comparison of strings, as Rust's `str::cmp` (byte order on
UTF-8, which agrees with code-point order). -/
def strCmp : List Char → List Char → ROrdering
  | [], [] => .eq
  | [], _ :: _ => .lt
  | _ :: _, [] => .gt
  | a :: as, b :: bs =>
    if a.toNat < b.toNat then .lt
    else if b.toNat < a.toNat then .gt
    else strCmp as bs

/-- `Process::cmp_for_json_order`: compare by start time; when equal, fall
through to lexicographic comparison of the pid strings. -/
def cmp_for_json_order (self other : Process) : ROrdering :=
  if self.start_time < other.start_time then .lt
  else if other.start_time < self.start_time then .gt
  else strCmp self.pid other.pid

/-- `Process::convert_address`: try the kernel libs first, then the process
libs; on a hit, intern the owning library into the used-libs table and return
`InLib`; otherwise return `Unknown` with the raw address. Mutation of the
global table is modelled by returning the updated table. -/
def convert_address (self : Process) (global_libs : GlobalLibTable)
    (kernel_libs : LibMappings Nat) (address : Nat) :
    InternalFrameAddress × GlobalLibTable :=
  match (kernel_libs.convert_address address).orElse
      (fun _ => self.libs.convert_address address) with
  | some (relative_address, lib_handle) =>
    let (global_lib_index, global_libs) :=
      global_libs.index_for_used_lib lib_handle
    (.InLib relative_address global_lib_index, global_libs)
  | none => (.Unknown address, global_libs)

/-- `Process::add_lib_mapping`. -/
def add_lib_mapping (self : Process) (lib : Nat)
    (start_avma end_avma relative_address_at_start : Nat) : Process :=
  { self with
    libs := self.libs.add_mapping start_avma end_avma
      relative_address_at_start lib }

/-- `Process::remove_lib_mapping`. -/
def remove_lib_mapping (self : Process) (start_avma : Nat) : Process :=
  { self with libs := self.libs.remove_mapping start_avma }

/-- `Process::remove_all_lib_mappings`. -/
def remove_all_lib_mappings (self : Process) : Process :=
  { self with libs := self.libs.clear }

end Process

/-! ### perf-map descriptor parsing (`samply/src/shared/perf_map.rs`) -/

/-- `char::to_digit(16)` restricted to what `u64::from_str_radix(_, 16)`
accepts: `0-9`, `a-f`, `A-F`. -/
def hexDigitVal (c : Char) : Option Nat :=
  let n := c.toNat
  if 48 ≤ n ∧ n ≤ 57 then some (n - 48)
  else if 97 ≤ n ∧ n ≤ 102 then some (n - 87)
  else if 65 ≤ n ∧ n ≤ 70 then some (n - 55)
  else none

/-- 2^64, the modulus of `u64` arithmetic. -/
def U64 : Nat := 2 ^ 64

/-- 2^32, the modulus of `u32` arithmetic. -/
def U32 : Nat := 2 ^ 32

/-- The digit-accumulation loop of `u64::from_str_radix(_, 16)`: fails on a
non-hex-digit character and on `u64` overflow (Rust's checked multiply/add). -/
def parseHexDigits : Nat → List Char → Option Nat
  | acc, [] => some acc
  | acc, c :: cs =>
    match hexDigitVal c with
    | none => none
    | some d =>
      let v := acc * 16 + d
      if v < U64 then parseHexDigits v cs else none

/-- `u64::from_str_radix(s, 16)`: rejects the empty string and a lone sign;
accepts one optional leading `+` (a `-` is not a hex digit, so it fails). -/
def from_str_radix_16 : List Char → Option Nat
  | [] => none
  | '+' :: rest => if rest = [] then none else parseHexDigits 0 rest
  | s => parseHexDigits 0 s

/-- `str::trim_start_matches("0x")`: repeatedly removes a leading `"0x"`. -/
def trim0x : List Char → List Char
  | '0' :: 'x' :: rest => trim0x rest
  | s => s

/-- Split at the first space, as one step of `str::splitn(_, ' ')`: returns
the piece before the first space and, when a space exists, the remainder
after it. -/
def breakSpace : List Char → List Char × Option (List Char)
  | [] => ([], none)
  | c :: cs =>
    if c = ' ' then ([], some cs)
    else
      let (a, r) := breakSpace cs
      (c :: a, r)

/-- `process_perf_map_line`: `splitn(3, ' ')` yields the address field, the
length field, and the rest of the line as the symbol name; the line is
dropped when a field is missing, the name is empty, or a hex parse fails. -/
def process_perf_map_line_chars (line : List Char) :
    Option (Nat × Nat × List Char) :=
  let (addr, rest1) := breakSpace line
  match rest1 with
  | none => none
  | some rest =>
    let (len, rest2) := breakSpace rest
    match rest2 with
    | none => none
    | some symbol_name =>
      if symbol_name = [] then none
      else
        match from_str_radix_16 (trim0x addr) with
        | none => none
        | some a =>
          match from_str_radix_16 (trim0x len) with
          | none => none
          | some l => some (a, l, symbol_name)

/-- `process_perf_map_line` at the `String` boundary. -/
def process_perf_map_line (line : String) : Option (Nat × Nat × String) :=
  (process_perf_map_line_chars line.data).map
    (fun r => (r.1, r.2.1, String.mk r.2.2))

/-! ### The synthetic-library loader (`try_load_perf_map`) -/

/-- `Symbol` from the profile crate: a relative address, a size, and a name. -/
structure Symbol where
  address : Nat
  size : Option Nat
  name : List Char
  deriving DecidableEq, Repr

/-- `LibMappingInfo::new_jit_function(lib_handle, category, js_frame)`: the
value stored per JIT mapping. The category and JS-frame data produced by the
external category manager are claim-irrelevant and kept abstract in `C`. -/
structure LibMappingInfo (C : Type) where
  lib_handle : Nat
  category : C

/-- The accumulator of `try_load_perf_map`'s loop: the fake library's symbol
table, the interval map under construction, and the synthetic address
cursor (`cumulative_address`, a `u32`). -/
structure PerfMapState (C : Type) where
  symbols : List Symbol
  mappings : LibMappings (LibMappingInfo C)
  cumulative_address : Nat

/-- One iteration of `try_load_perf_map`'s loop over parsed entries.
`classify` stands for the external `JitCategoryManager::classify_jit_symbol`;
`recycle` for `JitFunctionRecycler::recycle`, a stateful collaborator with
state type `R`, present only when the state option is `some`. The symbol is
pushed with the default cursor-assigned relative address; the recycler is
consulted afterwards and its substituted pair goes only into the mapping. -/
def perfMapStep {C R : Type} (classify : List Char → C)
    (recycle : R → List Char → Nat → Nat → Nat → (Nat × Nat) × R)
    (lib_handle : Nat)
    (st : PerfMapState C × Option R) (entry : Nat × Nat × List Char) :
    PerfMapState C × Option R :=
  let (addr, len, symbol_name) := entry
  let start_address := addr
  let end_address := (addr + len) % U64
  let code_size := len % U32
  let relative_address := st.1.cumulative_address
  let cumulative_address := (relative_address + code_size) % U32
  let symbols := st.1.symbols ++
    [⟨relative_address, some code_size, symbol_name⟩]
  let (pair, recycler) :=
    match st.2 with
    | some r =>
      let ((h, ra), r) := recycle r symbol_name code_size lib_handle
        relative_address
      ((h, ra), some r)
    | none => ((lib_handle, relative_address), none)
  let category := classify symbol_name
  let mappings := st.1.mappings.add_mapping start_address end_address pair.2
    ⟨pair.1, category⟩
  (⟨symbols, mappings, cumulative_address⟩, recycler)

/-- The whole loop of `try_load_perf_map`, folded over the parsed entries,
starting from an empty symbol table, an empty interval map and cursor 0. -/
def perf_map_scan {C R : Type} (classify : List Char → C)
    (recycle : R → List Char → Nat → Nat → Nat → (Nat × Nat) × R)
    (lib_handle : Nat) (recycler : Option R)
    (entries : List (Nat × Nat × List Char)) :
    PerfMapState C × Option R :=
  entries.foldl (perfMapStep classify recycle lib_handle)
    (⟨[], LibMappings.new _, 0⟩, recycler)

/-- The symbol table assembled by the loader's loop: a projection of
`perf_map_scan` used to state its properties. -/
def perf_map_symbols {C R : Type} (classify : List Char → C)
    (recycle : R → List Char → Nat → Nat → Nat → (Nat × Nat) × R)
    (lib_handle : Nat) (recycler : Option R)
    (entries : List (Nat × Nat × List Char)) : List Symbol :=
  (perf_map_scan classify recycle lib_handle recycler entries).1.symbols

/-- Closed form of the cursor recursion inside `try_load_perf_map`'s loop:
from cursor value `c`, each entry's symbol records the current cursor and the
entry's `u32`-truncated size, and the cursor advances by that size in `u32`
arithmetic. -/
def cursorSyms : Nat → List (Nat × Nat × List Char) → List Symbol
  | _, [] => []
  | c, (_, len, symbol_name) :: es =>
    ⟨c, some (len % U32), symbol_name⟩ ::
      cursorSyms ((c + len % U32) % U32) es

/-- Fold a list of `add_thread` calls over a process, to speak about a
process's whole lifetime of thread additions. -/
def apply_add_threads (p : Process) : List (Nat × Bool) → Process
  | [] => p
  | (t, m) :: rest => apply_add_threads (p.add_thread t m) rest

/-- `LibraryInfo` for the fake library (debug id, code id and arch carry no
claim-relevant content and are omitted). -/
structure LibraryInfo where
  debug_name : List Char
  name : List Char
  debug_path : List Char
  path : List Char
  deriving DecidableEq

/-- Modelled from the spec: the profile's library store (`Profile::add_lib`
and `Profile::set_lib_symbol_table` are not in the excerpt) — `add_lib`
allocates one fresh library handle; the assembled symbol table is handed to
the store once per source. -/
structure Profile where
  libs : List LibraryInfo
  symbol_tables : List (Nat × List Symbol)
  deriving DecidableEq

/-- Modelled from the spec: allocate a fresh handle for a library record. -/
def Profile.add_lib (self : Profile) (info : LibraryInfo) : Nat × Profile :=
  (self.libs.length, { self with libs := self.libs ++ [info] })

/-- Modelled from the spec: record a library's symbol table. -/
def Profile.set_lib_symbol_table (self : Profile) (handle : Nat)
    (table : List Symbol) : Profile :=
  { self with symbol_tables := self.symbol_tables ++ [(handle, table)] }

/-- `try_load_perf_map`. The file system is outside the embedding: `content`
is `none` when `/tmp/perf-<pid>.map` does not exist, and otherwise the file's
lines. A missing file returns `none` quietly; otherwise the fake library is
registered, every line is run through `process_perf_map_line` (bad lines
dropped by `filter_map`), the loop builds symbols and mappings, and the
symbol table is stored. -/
def try_load_perf_map {C R : Type} (classify : List Char → C)
    (recycle : R → List Char → Nat → Nat → Nat → (Nat × Nat) × R)
    (pid : Nat) (profile : Profile) (recycler : Option R)
    (content : Option (List (List Char))) :
    Option (LibMappings (LibMappingInfo C)) × Profile :=
  match content with
  | none => (none, profile)
  | some lines =>
    let name := "perf-".data ++ (toString pid).data ++ ".map".data
    let path := "/tmp/".data ++ name
    let (lib_handle, profile) := profile.add_lib ⟨name, name, path, path⟩
    let entries := lines.filterMap process_perf_map_line_chars
    let (st, _) := perf_map_scan classify recycle lib_handle recycler entries
    let profile := profile.set_lib_symbol_table lib_handle st.symbols
    (some st.mappings, profile)

/-! ### Helper lemmas -/

theorem LibMappings.convert_address_add_mapping {T : Type}
    (m : LibMappings T) (s e rel : Nat) (v : T) (a : Nat)
    (hs : s ≤ a) (ha : a < e) :
    (m.add_mapping s e rel v).convert_address a = some (rel + (a - s), v) := by
  unfold LibMappings.add_mapping LibMappings.convert_address
  rw [List.find?_cons_of_pos]
  · rfl
  · simp [hs, ha]

theorem breakSpace_of_not_mem (l : List Char) (h : ' ' ∉ l) :
    breakSpace l = (l, none) := by
  induction l with
  | nil => rfl
  | cons c cs ih =>
    have hc : ¬(c = ' ') := fun e => h (by rw [e]; exact List.mem_cons_self ' ' cs)
    have hcs : ' ' ∉ cs := fun m => h (List.mem_cons_of_mem _ m)
    simp [breakSpace, hc, ih hcs]

theorem breakSpace_append (a r : List Char) (h : ' ' ∉ a) :
    breakSpace (a ++ ' ' :: r) = (a, some r) := by
  induction a with
  | nil => simp [breakSpace]
  | cons c cs ih =>
    have hc : ¬(c = ' ') := fun e => h (by rw [e]; exact List.mem_cons_self ' ' cs)
    have hcs : ' ' ∉ cs := fun m => h (List.mem_cons_of_mem _ m)
    simp [breakSpace, hc, ih hcs]

theorem breakSpace_eq_some (l x r : List Char)
    (h : breakSpace l = (x, some r)) : l = x ++ ' ' :: r ∧ ' ' ∉ x := by
  induction l generalizing x with
  | nil => simp [breakSpace] at h
  | cons c cs ih =>
    by_cases hc : c = ' '
    · subst hc
      simp [breakSpace] at h
      obtain ⟨hx, hr⟩ := h
      subst hx; subst hr
      exact ⟨rfl, List.not_mem_nil ' '⟩
    · rcases hbs : breakSpace cs with ⟨a2, r2⟩
      simp [breakSpace, hc, hbs] at h
      obtain ⟨hx, hr⟩ := h
      subst hx
      obtain ⟨hl, hm⟩ := ih a2 (by rw [hbs, hr])
      refine ⟨by rw [List.cons_append, hl], ?_⟩
      intro hmem
      rcases List.mem_cons.mp hmem with he | hm2
      · exact hc he.symm
      · exact hm hm2

theorem perfMapStep_symbols {C R : Type} (classify : List Char → C)
    (recycle : R → List Char → Nat → Nat → Nat → (Nat × Nat) × R)
    (lib_handle : Nat) (st : PerfMapState C × Option R) (a len : Nat)
    (nm : List Char) :
    ((perfMapStep classify recycle lib_handle st (a, len, nm)).1.symbols =
        st.1.symbols ++ [⟨st.1.cumulative_address, some (len % U32), nm⟩])
    ∧ ((perfMapStep classify recycle lib_handle st
          (a, len, nm)).1.cumulative_address =
        (st.1.cumulative_address + len % U32) % U32) := by
  obtain ⟨⟨syms, maps, c⟩, r⟩ := st
  cases r with
  | none => exact ⟨rfl, rfl⟩
  | some rr =>
    rcases hrec : recycle rr nm (len % U32) lib_handle c with ⟨⟨hh, ra⟩, r2⟩
    constructor <;> simp [perfMapStep, hrec]

theorem foldl_perfMapStep_symbols {C R : Type} (classify : List Char → C)
    (recycle : R → List Char → Nat → Nat → Nat → (Nat × Nat) × R)
    (lib_handle : Nat) :
    ∀ (entries : List (Nat × Nat × List Char)) (syms : List Symbol)
      (maps : LibMappings (LibMappingInfo C)) (c : Nat) (r : Option R),
      (entries.foldl (perfMapStep classify recycle lib_handle)
          (⟨syms, maps, c⟩, r)).1.symbols = syms ++ cursorSyms c entries := by
  intro entries
  induction entries with
  | nil => intro syms maps c r; simp [cursorSyms]
  | cons e es ih =>
    intro syms maps c r
    obtain ⟨a, len, nm⟩ := e
    rw [List.foldl_cons]
    rcases hstep : perfMapStep classify recycle lib_handle (⟨syms, maps, c⟩, r)
      (a, len, nm) with ⟨⟨syms2, maps2, c2⟩, r2⟩
    have hs := perfMapStep_symbols classify recycle lib_handle
      (⟨syms, maps, c⟩, r) a len nm
    rw [hstep] at hs
    obtain ⟨h1, h2⟩ := hs
    simp only at h1 h2
    rw [ih syms2 maps2 c2 r2, h1, h2]
    simp [cursorSyms]

theorem perf_map_symbols_eq {C R : Type} (classify : List Char → C)
    (recycle : R → List Char → Nat → Nat → Nat → (Nat × Nat) × R)
    (lib_handle : Nat) (recycler : Option R)
    (entries : List (Nat × Nat × List Char)) :
    perf_map_symbols classify recycle lib_handle recycler entries =
      cursorSyms 0 entries := by
  unfold perf_map_symbols perf_map_scan
  rw [foldl_perfMapStep_symbols]
  simp

theorem cursorSyms_length :
    ∀ (es : List (Nat × Nat × List Char)) (c : Nat),
      (cursorSyms c es).length = es.length := by
  intro es
  induction es with
  | nil => intro c; simp [cursorSyms]
  | cons e es ih =>
    intro c
    obtain ⟨a, len, nm⟩ := e
    simp [cursorSyms, ih]

theorem sum_take_succ_nat :
    ∀ (l : List Nat) (i : Nat) (h : i < l.length),
      (l.take (i + 1)).sum = (l.take i).sum + l.get ⟨i, h⟩ := by
  intro l
  induction l with
  | nil => intro i h; simp at h
  | cons x xs ih =>
    intro i h
    cases i with
    | zero => simp
    | succ j =>
      have hj : j < xs.length := by simp at h; omega
      simp only [List.take_succ_cons, List.sum_cons, List.get_cons_succ]
      rw [ih j hj]
      omega

theorem cursorSyms_address :
    ∀ (es : List (Nat × Nat × List Char)) (c : Nat),
      c + (es.map fun e => e.2.1).sum < U32 →
      ∀ (i : Nat) (hi : i < (cursorSyms c es).length),
        ((cursorSyms c es).get ⟨i, hi⟩).address =
          c + ((es.map fun e => e.2.1).take i).sum := by
  intro es
  induction es with
  | nil => intro c h i hi; simp [cursorSyms] at hi
  | cons e es ih =>
    obtain ⟨a, len, nm⟩ := e
    intro c h i hi
    simp only [List.map_cons, List.sum_cons] at h
    have hlen : len < U32 := by omega
    have hmod : len % U32 = len := Nat.mod_eq_of_lt hlen
    have hcmod : (c + len % U32) % U32 = c + len := by
      rw [hmod]; exact Nat.mod_eq_of_lt (by omega)
    cases i with
    | zero => simp [cursorSyms]
    | succ j =>
      have hi2 : j < (cursorSyms ((c + len % U32) % U32) es).length := by
        rw [cursorSyms_length]
        rw [cursorSyms_length] at hi
        simp at hi
        omega
      have ihj := ih ((c + len % U32) % U32) (by rw [hcmod]; omega) j hi2
      simp only [cursorSyms, List.get_cons_succ]
      rw [ihj, hcmod]
      simp only [List.map_cons, List.take_succ_cons, List.sum_cons]
      omega

/-! ### Claims -/

/-- C1: For every address and process, resolution queries the kernel map
first: if an address is covered by both the kernel map and the process map,
`convert_address` returns the kernel map's mapping (the kernel hit takes
precedence over any process-map hit). -/
theorem kernel_map_takes_precedence
    (p : Process) (g : GlobalLibTable) (kernel_libs : LibMappings Nat)
    (address ra h ra2 h2 : Nat)
    (hk : kernel_libs.convert_address address = some (ra, h))
    (_hp : p.libs.convert_address address = some (ra2, h2)) :
    (p.convert_address g kernel_libs address).1 =
      .InLib ra (g.index_for_used_lib h).1 := by
  rcases hI : g.index_for_used_lib h with ⟨i, g2⟩
  simp [Process.convert_address, hk, Option.orElse, hI]

/-- Witness for C1: the address 160 is covered by both the kernel map (a
mapping of library 9 with origin 5) and the process map (library 1 with
origin 0); resolution returns the kernel mapping's relative address. -/
theorem kernel_map_takes_precedence_witness :
    (Process.convert_address
        (Process.add_lib_mapping (Process.new "proc".data "7".data 0)
          1 100 200 0)
        ⟨[]⟩ (LibMappings.add_mapping (LibMappings.new Nat) 100 300 5 9)
        160).1 =
      InternalFrameAddress.InLib 65 0 :=
  kernel_map_takes_precedence
    (Process.add_lib_mapping (Process.new "proc".data "7".data 0) 1 100 200 0)
    ⟨[]⟩ (LibMappings.add_mapping (LibMappings.new Nat) 100 300 5 9)
    160 65 9 60 1 (by decide) (by decide)

/-- C2: inserting a mapping makes every address inside it resolve through it
with relative address `relative_origin + (address - start)`; at the process
level (with no kernel hit) `convert_address` then returns `InLib` with that
relative address and the library's used-index. This holds over any prior
state of the map, in particular when the new mapping partially overlaps an
older one. -/
theorem add_lib_mapping_supersedes :
    (∀ (T : Type) (m : LibMappings T) (s e rel : Nat) (v : T) (a : Nat),
        s ≤ a → a < e →
        (m.add_mapping s e rel v).convert_address a =
          some (rel + (a - s), v))
    ∧ (∀ (p : Process) (g : GlobalLibTable) (k : LibMappings Nat)
        (lib s e rel a : Nat),
        k.convert_address a = none → s ≤ a → a < e →
        ((p.add_lib_mapping lib s e rel).convert_address g k a).1 =
          .InLib (rel + (a - s)) (g.index_for_used_lib lib).1) := by
  constructor
  · intro T m s e rel v a hs ha
    exact LibMappings.convert_address_add_mapping m s e rel v a hs ha
  · intro p g k lib s e rel a hk hs ha
    rcases hI : g.index_for_used_lib lib with ⟨i, g2⟩
    simp [Process.convert_address, Process.add_lib_mapping, hk,
      Option.orElse, LibMappings.convert_address_add_mapping _ _ _ _ _ _ hs ha,
      hI]

/-- Witness for C2: mapping A is `[100, 200)` for library 1; mapping B is
`[150, 250)` with origin 7 for library 2 and partially overlaps A; address
160 — in the overlap, formerly A territory — resolves via B to relative
address `7 + (160 - 150) = 17` and used-index 0. -/
theorem add_lib_mapping_supersedes_witness :
    (Process.convert_address
        (Process.add_lib_mapping
          (Process.add_lib_mapping (Process.new "proc".data "7".data 0)
            1 100 200 0)
          2 150 250 7)
        ⟨[]⟩ (LibMappings.new Nat) 160).1 =
      InternalFrameAddress.InLib 17 0 :=
  add_lib_mapping_supersedes.2
    (Process.add_lib_mapping (Process.new "proc".data "7".data 0) 1 100 200 0)
    ⟨[]⟩ (LibMappings.new Nat) 2 150 250 7 160
    (by decide) (by decide) (by decide)

/-- C3: when neither the kernel map nor the process map covers the address,
`convert_address` returns `Unknown` carrying the raw input address; and
resolution is total — every address yields either `InLib` or `Unknown`,
there is no error outcome. -/
theorem convert_address_no_error :
    (∀ (p : Process) (g : GlobalLibTable) (k : LibMappings Nat) (a : Nat),
        k.convert_address a = none → p.libs.convert_address a = none →
        (p.convert_address g k a).1 = .Unknown a)
    ∧ (∀ (p : Process) (g : GlobalLibTable) (k : LibMappings Nat) (a : Nat),
        (∃ ra i, (p.convert_address g k a).1 = .InLib ra i) ∨
          (p.convert_address g k a).1 = .Unknown a) := by
  constructor
  · intro p g k a hk hp
    simp [Process.convert_address, hk, hp, Option.orElse]
  · intro p g k a
    unfold Process.convert_address
    rcases (k.convert_address a).orElse (fun _ => p.libs.convert_address a)
      with - | ⟨ra, lib⟩
    · right; rfl
    · left
      rcases hI : g.index_for_used_lib lib with ⟨i, g2⟩
      exact ⟨ra, i, by simp [hI]⟩

/-- Witness for C3: with an empty kernel map and an empty process map,
address 160 resolves to `Unknown 160`. -/
theorem convert_address_no_error_witness :
    (Process.convert_address (Process.new "proc".data "7".data 0) ⟨[]⟩
        (LibMappings.new Nat) 160).1 = InternalFrameAddress.Unknown 160 :=
  convert_address_no_error.1 (Process.new "proc".data "7".data 0) ⟨[]⟩
    (LibMappings.new Nat) 160 (by decide) (by decide)

/-- C7: the process output comparator orders by ascending start time and
breaks ties by ascending lexicographic string comparison of the pid; in
particular, at equal start times a process with pid `"10"` sorts before a
process with pid `"2"`. -/
theorem cmp_for_json_order_spec :
    (∀ p q : Process, p.start_time < q.start_time →
        p.cmp_for_json_order q = .lt)
    ∧ (∀ p q : Process, q.start_time < p.start_time →
        p.cmp_for_json_order q = .gt)
    ∧ (∀ p q : Process, p.start_time = q.start_time →
        p.cmp_for_json_order q = Process.strCmp p.pid q.pid)
    ∧ (Process.cmp_for_json_order (Process.new "a".data "10".data 5)
        (Process.new "b".data "2".data 5) = .lt)
    ∧ Process.strCmp "10".data "2".data = .lt := by
  refine ⟨fun p q h => ?_, fun p q h => ?_, fun p q h => ?_, by decide,
    by decide⟩
  · simp [Process.cmp_for_json_order, h]
  · simp [Process.cmp_for_json_order, h, Nat.not_lt.mpr (Nat.le_of_lt h)]
  · simp [Process.cmp_for_json_order, h]

/-- Witness for C7: two processes with equal start time 5 and pids `"10"`
and `"2"` compare `lt`, and the comparison agrees with `strCmp`. -/
theorem cmp_for_json_order_spec_witness :
    Process.cmp_for_json_order (Process.new "a".data "10".data 5)
      (Process.new "b".data "2".data 5) =
      Process.strCmp "10".data "2".data :=
  cmp_for_json_order_spec.2.2.1 (Process.new "a".data "10".data 5)
    (Process.new "b".data "2".data 5) rfl

/-- C8: `add_thread` always appends the thread to the thread list; it
designates the thread as main only when `is_main` is true and no main thread
is set; and once a main thread is set, no later sequence of `add_thread`
calls changes it. -/
theorem add_thread_spec :
    (∀ (p : Process) (t : Nat) (m : Bool),
        (p.add_thread t m).threads = p.threads ++ [t])
    ∧ (∀ (p : Process) (t : Nat) (m : Bool),
        (p.add_thread t m).main_thread =
          if m = true ∧ p.main_thread = none then some t
          else p.main_thread)
    ∧ (∀ (p : Process) (x : Nat) (ops : List (Nat × Bool)),
        p.main_thread = some x →
        (apply_add_threads p ops).main_thread = some x) := by
  have hmain : ∀ (p : Process) (t : Nat) (m : Bool),
      (p.add_thread t m).main_thread =
        if m = true ∧ p.main_thread = none then some t
        else p.main_thread := by
    intro p t m
    cases m <;> cases hp : p.main_thread <;>
      simp [Process.add_thread, hp, Option.isNone]
  refine ⟨fun p t m => ?_, hmain, fun p x ops => ?_⟩
  · cases m <;> cases hp : p.main_thread <;>
      simp [Process.add_thread, hp, Option.isNone]
  · induction ops generalizing p with
    | nil => intro h; exact h
    | cons op rest ih =>
      intro h
      obtain ⟨t, m⟩ := op
      have : (p.add_thread t m).main_thread = some x := by
        rw [hmain]
        simp [h]
      exact ih _ this

/-- Witness for C8: thread 3 is added as main; threads 4 and 5 are later
added with the is-main flag set, yet the main thread stays 3. -/
theorem add_thread_spec_witness :
    (apply_add_threads
        (Process.add_thread (Process.new "proc".data "7".data 0) 3 true)
        [(4, true), (5, true)]).main_thread = some 3 :=
  add_thread_spec.2.2
    (Process.add_thread (Process.new "proc".data "7".data 0) 3 true)
    3 [(4, true), (5, true)] (by decide)

/-- C9: `set_start_time`, `set_end_time` and `set_name` unconditionally
overwrite their field (last write wins, including `set_end_time` replacing a
previously set end time), and after `set_end_time t` the end time is
`some t`, marking the process as ended. -/
theorem setters_unconditionally_overwrite :
    (∀ (p : Process) (t : Nat), (p.set_start_time t).start_time = t)
    ∧ (∀ (p : Process) (t : Nat), (p.set_end_time t).end_time = some t)
    ∧ (∀ (p : Process) (n : List Char), (p.set_name n).name = n)
    ∧ (∀ (p : Process) (t t2 : Nat),
        ((p.set_start_time t2).set_start_time t).start_time = t)
    ∧ (∀ (p : Process) (t t2 : Nat),
        ((p.set_end_time t2).set_end_time t).end_time = some t)
    ∧ (∀ (p : Process) (n n2 : List Char),
        ((p.set_name n2).set_name n).name = n) :=
  ⟨fun _ _ => rfl, fun _ _ => rfl, fun _ _ => rfl,
   fun _ _ _ => rfl, fun _ _ _ => rfl, fun _ _ _ => rfl⟩

/-- C4: the descriptor-line parser maps `"1000 20 foo"` to
`(0x1000, 0x20, "foo")`; a line with fewer than three space-separated fields
(fewer than two spaces) is discarded; and for a well-split line the name is
the whole remainder after the second space (it may contain spaces), with the
line discarded when the name is empty or when the address or length field is
not valid hex. -/
theorem process_perf_map_line_spec :
    (process_perf_map_line "1000 20 foo" = some (0x1000, 0x20, "foo"))
    ∧ (∀ line : List Char, line.count ' ' < 2 →
        process_perf_map_line_chars line = none)
    ∧ (∀ a l n : List Char, ' ' ∉ a → ' ' ∉ l →
        process_perf_map_line_chars (a ++ ' ' :: (l ++ ' ' :: n)) =
          if n = [] then none
          else
            match from_str_radix_16 (trim0x a) with
            | none => none
            | some x =>
              match from_str_radix_16 (trim0x l) with
              | none => none
              | some y => some (x, y, n)) := by
  refine ⟨by decide, fun line hcount => ?_, fun a l n ha hl => ?_⟩
  · rcases hbs : breakSpace line with ⟨x, r1⟩
    cases r1 with
    | none => simp [process_perf_map_line_chars, hbs]
    | some rest =>
      obtain ⟨hline, hx⟩ := breakSpace_eq_some line x rest hbs
      have hxz : x.count ' ' = 0 := List.count_eq_zero.mpr hx
      have hrest : rest.count ' ' = 0 := by
        rw [hline] at hcount
        simp [List.count_append, List.count_cons, hxz] at hcount
        omega
      have hrm : ' ' ∉ rest := List.count_eq_zero.mp hrest
      simp [process_perf_map_line_chars, hbs, breakSpace_of_not_mem rest hrm]
  · simp only [process_perf_map_line_chars, breakSpace_append a _ ha,
      breakSpace_append l n hl]

/-- Witness for C4: `"1000 20"` has only two fields, `"zz 20 foo"` has a
non-hex address, and `"1000 20 "` has an empty name; each is discarded,
while a name containing a space is kept whole. -/
theorem process_perf_map_line_spec_witness :
    process_perf_map_line_chars "1000 20".data = none
    ∧ process_perf_map_line_chars
        ("zz".data ++ ' ' :: ("20".data ++ ' ' :: "foo".data)) = none
    ∧ process_perf_map_line_chars
        ("1000".data ++ ' ' :: ("20".data ++ ' ' :: [])) = none
    ∧ process_perf_map_line_chars
        ("1000".data ++ ' ' :: ("20".data ++ ' ' :: "foo bar".data)) =
        some (0x1000, 0x20, "foo bar".data) :=
  ⟨process_perf_map_line_spec.2.1 "1000 20".data (by decide),
   by
     rw [process_perf_map_line_spec.2.2 "zz".data "20".data "foo".data
       (by decide) (by decide)]
     decide,
   by
     rw [process_perf_map_line_spec.2.2 "1000".data "20".data []
       (by decide) (by decide)]
     decide,
   by
     rw [process_perf_map_line_spec.2.2 "1000".data "20".data "foo bar".data
       (by decide) (by decide)]
     decide⟩

/-- C5: a missing perf-map file makes the loader return quietly (no mappings,
no error); a source whose every line is malformed yields `some` empty
mapping set, quietly; and a malformed line is skipped individually — removing
it from the source does not change the loader's output at all, so it cannot
abort processing of the remaining lines. -/
theorem perf_map_error_policy {C R : Type} (classify : List Char → C)
    (recycle : R → List Char → Nat → Nat → Nat → (Nat × Nat) × R) :
    (∀ (pid : Nat) (profile : Profile) (recycler : Option R),
        try_load_perf_map classify recycle pid profile recycler none =
          (none, profile))
    ∧ (∀ (pid : Nat) (profile : Profile) (recycler : Option R)
        (lines : List (List Char)),
        (∀ l ∈ lines, process_perf_map_line_chars l = none) →
        (try_load_perf_map classify recycle pid profile recycler
            (some lines)).1 =
          some (LibMappings.new (LibMappingInfo C)))
    ∧ (∀ (pid : Nat) (profile : Profile) (recycler : Option R)
        (pre post : List (List Char)) (bad : List Char),
        process_perf_map_line_chars bad = none →
        try_load_perf_map classify recycle pid profile recycler
            (some (pre ++ bad :: post)) =
          try_load_perf_map classify recycle pid profile recycler
            (some (pre ++ post))) := by
  refine ⟨fun pid profile recycler => rfl,
    fun pid profile recycler lines h => ?_,
    fun pid profile recycler pre post bad h => ?_⟩
  · have hn : lines.filterMap process_perf_map_line_chars = [] := by
      rw [List.filterMap_eq_nil_iff]
      exact h
    simp [try_load_perf_map, hn, perf_map_scan, Profile.add_lib,
      LibMappings.new]
  · have he : (pre ++ bad :: post).filterMap process_perf_map_line_chars =
        (pre ++ post).filterMap process_perf_map_line_chars := by
      simp [List.filterMap_append, List.filterMap_cons, h]
    simp only [try_load_perf_map, he]

/-- Witness for C5: with a concrete classifier and recycler, a source whose
only line is malformed yields `some` empty mapping set, and deleting the
malformed line from a two-line source leaves the whole output unchanged. -/
theorem perf_map_error_policy_witness :
    ((try_load_perf_map (fun _ => (0 : Nat))
          (fun (r : Nat) _ _ h a => ((h, a), r)) 7 ⟨[], []⟩
          (none : Option Nat) (some ["bad".data])).1 =
        some (LibMappings.new (LibMappingInfo Nat)))
    ∧ (try_load_perf_map (fun _ => (0 : Nat))
          (fun (r : Nat) _ _ h a => ((h, a), r)) 7 ⟨[], []⟩
          (none : Option Nat) (some (["10 2 f".data] ++ "bad".data :: [])) =
        try_load_perf_map (fun _ => (0 : Nat))
          (fun (r : Nat) _ _ h a => ((h, a), r)) 7 ⟨[], []⟩
          (none : Option Nat) (some (["10 2 f".data] ++ []))) :=
  ⟨(perf_map_error_policy (fun _ => (0 : Nat))
      (fun (r : Nat) _ _ h a => ((h, a), r))).2.1 7 ⟨[], []⟩ none
      ["bad".data] (by decide),
   (perf_map_error_policy (fun _ => (0 : Nat))
      (fun (r : Nat) _ _ h a => ((h, a), r))).2.2 7 ⟨[], []⟩ none
      ["10 2 f".data] [] "bad".data (by decide)⟩

/-- C6: without a recycler the synthetic library's relative addresses come
from a cursor that starts at 0 and advances by each entry's size: the i-th
symbol's address is the sum of the sizes of the entries before it (so the
0-th is 0); consecutive entries' addresses differ by exactly the earlier
entry's size, are strictly increasing when that size is positive, and their
relative-address ranges are disjoint — all regardless of the entries' true
runtime addresses, assuming the total size fits in `u32` (beyond which the
code's `u32` cursor could not be monotonic anyway). -/
theorem synthetic_cursor_monotonic {C R : Type} (classify : List Char → C)
    (recycle : R → List Char → Nat → Nat → Nat → (Nat × Nat) × R)
    (lib_handle : Nat) (entries : List (Nat × Nat × List Char))
    (syms : List Symbol)
    (hsyms : syms = perf_map_symbols classify recycle lib_handle
      (none : Option R) entries)
    (H : (entries.map fun e => e.2.1).sum < U32) :
    (syms.length = entries.length)
    ∧ (∀ (i : Nat) (hi : i < syms.length),
        (syms.get ⟨i, hi⟩).address =
          ((entries.map fun e => e.2.1).take i).sum)
    ∧ (∀ (i : Nat) (h1 : i + 1 < syms.length) (h2 : i + 1 < entries.length),
        (syms.get ⟨i + 1, h1⟩).address =
          (syms.get ⟨i, Nat.lt_of_succ_lt h1⟩).address +
            (entries.get ⟨i, Nat.lt_of_succ_lt h2⟩).2.1)
    ∧ (∀ (i : Nat) (h1 : i + 1 < syms.length) (h2 : i + 1 < entries.length),
        0 < (entries.get ⟨i, Nat.lt_of_succ_lt h2⟩).2.1 →
        (syms.get ⟨i, Nat.lt_of_succ_lt h1⟩).address <
          (syms.get ⟨i + 1, h1⟩).address)
    ∧ (∀ (i : Nat) (h1 : i + 1 < syms.length) (h2 : i + 1 < entries.length)
        (x : Nat),
        (syms.get ⟨i, Nat.lt_of_succ_lt h1⟩).address ≤ x →
        x < (syms.get ⟨i, Nat.lt_of_succ_lt h1⟩).address +
          (entries.get ⟨i, Nat.lt_of_succ_lt h2⟩).2.1 →
        ¬((syms.get ⟨i + 1, h1⟩).address ≤ x ∧
            x < (syms.get ⟨i + 1, h1⟩).address +
              (entries.get ⟨i + 1, h2⟩).2.1)) := by
  have he : syms = cursorSyms 0 entries :=
    hsyms.trans (perf_map_symbols_eq classify recycle lib_handle none entries)
  subst he
  have hlen : (cursorSyms 0 entries).length = entries.length :=
    cursorSyms_length entries 0
  have haddr : ∀ (i : Nat) (hi : i < (cursorSyms 0 entries).length),
      ((cursorSyms 0 entries).get ⟨i, hi⟩).address =
        ((entries.map fun e => e.2.1).take i).sum := by
    intro i hi
    have := cursorSyms_address entries 0 (by omega) i hi
    simpa using this
  have hmap : ∀ (i : Nat) (hm : i < (entries.map fun e => e.2.1).length)
      (h2 : i < entries.length),
      (entries.map fun e => e.2.1).get ⟨i, hm⟩ =
        (entries.get ⟨i, h2⟩).2.1 := by
    intro i hm h2
    simp [List.get_eq_getElem]
  have hstep : ∀ (i : Nat) (h1 : i + 1 < (cursorSyms 0 entries).length)
      (h2 : i + 1 < entries.length),
      ((cursorSyms 0 entries).get ⟨i + 1, h1⟩).address =
        ((cursorSyms 0 entries).get ⟨i, Nat.lt_of_succ_lt h1⟩).address +
          (entries.get ⟨i, Nat.lt_of_succ_lt h2⟩).2.1 := by
    intro i h1 h2
    have hm : i < (entries.map fun e => e.2.1).length := by
      simp; omega
    rw [haddr (i + 1) h1, haddr i (Nat.lt_of_succ_lt h1),
      sum_take_succ_nat (entries.map fun e => e.2.1) i hm,
      hmap i hm (Nat.lt_of_succ_lt h2)]
  refine ⟨hlen, haddr, hstep, ?_, ?_⟩
  · intro i h1 h2 hpos
    have := hstep i h1 h2
    omega
  · intro i h1 h2 x hx1 hx2
    have := hstep i h1 h2
    omega

/-- Witness for C6: entries of sizes 32 and 2 whose true address ranges
overlap (`[4096, 4128)` and `[4000, 4002)`): the second symbol's relative
address is 32, the sum of the sizes before it. -/
theorem synthetic_cursor_monotonic_witness :
    ((perf_map_symbols (fun _ => (0 : Nat))
        (fun (r : Nat) _ _ h a => ((h, a), r)) 5 (none : Option Nat)
        [(4096, 32, "f".data), (4000, 2, "g".data)]).get
      ⟨1, by decide⟩).address = 32 :=
  ((synthetic_cursor_monotonic (fun _ => (0 : Nat))
      (fun (r : Nat) _ _ h a => ((h, a), r)) 5
      [(4096, 32, "f".data), (4000, 2, "g".data)] _ rfl
      (by decide)).2.1 1 (by decide)).trans (by decide)

/-- C10: the recycler's substituted `(handle, relative_address)` pair is used
only for the interval-map registration; the fake library's symbol table is
unaffected by the recycler — it always records the default cursor-assigned
relative address, because the symbol is pushed before the recycler is
consulted. -/
theorem recycler_substitution_scope {C R : Type} (classify : List Char → C)
    (recycle : R → List Char → Nat → Nat → Nat → (Nat × Nat) × R) :
    (∀ (lib_handle : Nat) (entries : List (Nat × Nat × List Char)) (r0 : R),
        perf_map_symbols classify recycle lib_handle (some r0) entries =
          perf_map_symbols classify recycle lib_handle (none : Option R)
            entries)
    ∧ (∀ (lib_handle : Nat) (st : PerfMapState C) (r r2 : R)
        (addr len h2 ra2 : Nat) (nm : List Char),
        recycle r nm (len % U32) lib_handle st.cumulative_address =
          ((h2, ra2), r2) →
        perfMapStep classify recycle lib_handle (st, some r) (addr, len, nm) =
          (⟨st.symbols ++ [⟨st.cumulative_address, some (len % U32), nm⟩],
            LibMappings.add_mapping st.mappings addr ((addr + len) % U64) ra2
              ⟨h2, classify nm⟩,
            (st.cumulative_address + len % U32) % U32⟩, some r2)) := by
  constructor
  · intro lib_handle entries r0
    rw [perf_map_symbols_eq, perf_map_symbols_eq]
  · intro lib_handle st r r2 addr len h2 ra2 nm hrec
    obtain ⟨syms, maps, c⟩ := st
    simp only at hrec
    simp [perfMapStep, hrec]

/-- Witness for C10: with a recycler that substitutes handle 105 and relative
address 50, the step still pushes the symbol at the default cursor address 0,
while the mapping is registered with the substituted pair. -/
theorem recycler_substitution_scope_witness :
    perfMapStep (fun _ => (0 : Nat))
        (fun (r : Nat) _ _ h a => ((h + 100, a + 50), r + 1)) 5
        (⟨[], LibMappings.new (LibMappingInfo Nat), 0⟩, some 0)
        (4096, 32, "f".data) =
      (⟨[⟨0, some (32 % U32), "f".data⟩],
        LibMappings.add_mapping (LibMappings.new (LibMappingInfo Nat)) 4096
          ((4096 + 32) % U64) 50 ⟨105, 0⟩,
        (0 + 32 % U32) % U32⟩, some 1) :=
  (recycler_substitution_scope (fun _ => (0 : Nat))
      (fun (r : Nat) _ _ h a => ((h + 100, a + 50), r + 1))).2 5
    ⟨[], LibMappings.new (LibMappingInfo Nat), 0⟩ 0 1 4096 32 105 50
    "f".data (by decide)

end Samply
